import Mathlib

/-
A verification development for the subscription-analytics engine of the
subaudit application.  The definitions below are a shallow embedding of the
analytics code in `src/hooks/useSubscriptions.ts` (cost normalisation,
aggregate analytics, the rule-based recommendation generator) and of the
weighted-score classifier `generateRecommendation` from the smart-insights
module.  Costs are embedded as rationals, timestamps as integer day numbers
(days since 1970-01-01), and the date-fns calendar helpers the code calls
(`isSameMonth`, `isSameYear`, `subMonths`, `differenceInDays`,
`startOfWeek`, `addDays`, `subWeeks`, `format 'MMM'`) are implemented over
that day-number representation with the proleptic Gregorian calendar.
-/

namespace SubAudit

/-- One entry of a subscription's `price_history`: a `{date, cost}` snapshot. -/
structure PriceEntry where
  date : Int
  cost : Rat
deriving DecidableEq

/-- The `Subscription` record from `src/types/index.ts`, restricted to the
fields the analytics engine reads.  Timestamp-valued string fields are
embedded as integer day numbers; nullable/optional fields as `Option`.
Presentation-only fields (`currency`, `is_trial`, `notes`, ...) that the
engine never touches are omitted. -/
structure Subscription where
  id : String
  name : String
  cost : Rat
  billing_cycle : String
  next_renewal_date : Int
  category : String
  is_active : Bool
  cancellation_date : Option Int
  last_used_date : Option Int
  value_rating : Option Int
  created_at : Int
  price_history : List PriceEntry
deriving DecidableEq

/- ## Calendar helpers (embedding of the date-fns functions used) -/

/-- Gregorian leap-year test. -/
def isLeapYear (y : Int) : Bool :=
  (y % 4 == 0 && y % 100 != 0) || (y % 400 == 0)

/-- Number of days in month `m` (1..12) of year `y`. -/
def daysInMonth (y : Int) (m : Nat) : Nat :=
  if m = 2 then (if isLeapYear y then 29 else 28)
  else if m = 4 ∨ m = 6 ∨ m = 9 ∨ m = 11 then 30
  else 31

/-- Convert a day number (days since 1970-01-01) to a Gregorian civil date
`(year, month 1..12, day 1..31)`. -/
def civilFromDays (z0 : Int) : Int × Nat × Nat :=
  let z := z0 + 719468
  let era := Int.fdiv z 146097
  let doe := z - era * 146097
  let yoe := Int.fdiv (doe - Int.fdiv doe 1460 + Int.fdiv doe 36524 - Int.fdiv doe 146096) 365
  let y := yoe + era * 400
  let doy := doe - (365 * yoe + Int.fdiv yoe 4 - Int.fdiv yoe 100)
  let mp := Int.fdiv (5 * doy + 2) 153
  let d := doy - Int.fdiv (153 * mp + 2) 5 + 1
  let m := if mp < 10 then mp + 3 else mp - 9
  (if m ≤ 2 then y + 1 else y, m.toNat, d.toNat)

/-- Convert a Gregorian civil date to a day number (days since 1970-01-01). -/
def daysFromCivil (y : Int) (m : Nat) (d : Nat) : Int :=
  let y' := if m ≤ 2 then y - 1 else y
  let era := Int.fdiv y' 400
  let yoe := y' - era * 400
  let mp : Int := if 2 < m then (m : Int) - 3 else (m : Int) + 9
  let doy := Int.fdiv (153 * mp + 2) 5 + (d : Int) - 1
  let doe := yoe * 365 + Int.fdiv yoe 4 - Int.fdiv yoe 100 + doy
  era * 146097 + doe - 719468

/-- Year component of a day number. -/
def yearOf (t : Int) : Int := (civilFromDays t).1

/-- Month component (1..12) of a day number. -/
def monthOf (t : Int) : Nat := (civilFromDays t).2.1

/-- Day-of-month component of a day number. -/
def dayOf (t : Int) : Nat := (civilFromDays t).2.2

/-- date-fns `isSameMonth`: same month of the same year. -/
def isSameMonth (a b : Int) : Bool :=
  yearOf a == yearOf b && monthOf a == monthOf b

/-- date-fns `isSameYear`. -/
def isSameYear (a b : Int) : Bool := yearOf a == yearOf b

/-- date-fns `subMonths`: shift a date back by `n` months, clamping the
day-of-month to the length of the target month. -/
def subMonths (t : Int) (n : Int) : Int :=
  let y := yearOf t
  let m := monthOf t
  let d := dayOf t
  let total : Int := y * 12 + (m : Int) - 1 - n
  let y' := Int.fdiv total 12
  let m' : Nat := (Int.emod total 12).toNat + 1
  daysFromCivil y' m' (min d (daysInMonth y' m'))

/-- date-fns `differenceInDays` at day granularity. -/
def differenceInDays (a b : Int) : Int := a - b

/-- date-fns `startOfWeek` with `weekStartsOn: 1`: the most recent Monday
(1970-01-01 was a Thursday). -/
def startOfWeekMon (t : Int) : Int := t - Int.emod (t + 3) 7

/-- date-fns `format(date, 'MMM')`: English three-letter month name. -/
def monthName (m : Nat) : String :=
  if m = 1 then "Jan" else if m = 2 then "Feb" else if m = 3 then "Mar"
  else if m = 4 then "Apr" else if m = 5 then "May" else if m = 6 then "Jun"
  else if m = 7 then "Jul" else if m = 8 then "Aug" else if m = 9 then "Sep"
  else if m = 10 then "Oct" else if m = 11 then "Nov" else "Dec"

/- ## Cost normalisation and aggregate analytics
   (embedding of the `analytics` memo in `src/hooks/useSubscriptions.ts`) -/

/-- `getMonthlyCost` from `useSubscriptions.ts`: normalise a subscription's
cost to a monthly figure; unknown cycles contribute 0. -/
def getMonthlyCost (sub : Subscription) : Rat :=
  if sub.billing_cycle = "monthly" then sub.cost
  else if sub.billing_cycle = "yearly" then sub.cost / 12
  else if sub.billing_cycle = "weekly" then sub.cost * 52 / 12
  else 0

/-- `allSubscriptions.filter(s => s.is_active)`. -/
def activeSubs (subs : List Subscription) : List Subscription :=
  subs.filter (fun s => s.is_active)

/-- `totalMonthlyCost`: reduce over the active subscriptions. -/
def totalMonthlyCostOf (subs : List Subscription) : Rat :=
  (activeSubs subs).foldl (fun total sub => total + getMonthlyCost sub) 0

/-- The `lastMonthCost` filter predicate: `created_at` lies in the previous
calendar month (`isSameMonth(createdAt, subMonths(now,1)) && isSameYear(...)`). -/
def inLastMonth (now : Int) (s : Subscription) : Bool :=
  isSameMonth s.created_at (subMonths now 1) && isSameYear s.created_at (subMonths now 1)

/-- `lastMonthCost`: monthly-equivalent cost summed over ALL subscriptions
created in the previous calendar month. -/
def lastMonthCostOf (subs : List Subscription) (now : Int) : Rat :=
  (subs.filter (inLastMonth now)).foldl (fun total sub => total + getMonthlyCost sub) 0

/-- `upcomingRenewals`: active subscriptions whose renewal is 0..7 days away. -/
def upcomingRenewalsOf (subs : List Subscription) (now : Int) : List Subscription :=
  (activeSubs subs).filter (fun sub =>
    let daysUntil := differenceInDays sub.next_renewal_date now
    decide (0 ≤ daysUntil ∧ daysUntil ≤ 7))

/-- The `lastWeekCost` filter predicate: `next_renewal_date` lies in the
previous Monday-to-Sunday calendar week. -/
def inLastWeek (now : Int) (s : Subscription) : Bool :=
  let lastWeekStart := startOfWeekMon (now - 7)
  let lastWeekEnd := lastWeekStart + 6
  decide (lastWeekStart ≤ s.next_renewal_date ∧ s.next_renewal_date ≤ lastWeekEnd)

/-- `lastWeekCost`: RAW cost (`sub.cost`, not monthly-equivalent) summed over
ALL subscriptions whose `next_renewal_date` lies in the previous calendar week. -/
def lastWeekCostOf (subs : List Subscription) (now : Int) : Rat :=
  (subs.filter (inLastWeek now)).foldl (fun sum sub => sum + sub.cost) 0

/-- Insert-or-add into an association list, embedding the JS object update
`acc[k] = (acc[k] || 0) + v` (string keys keep insertion order). -/
def upsert (k : String) (v : Rat) : List (String × Rat) → List (String × Rat)
  | [] => [(k, v)]
  | (k', v') :: rest =>
      if k' = k then (k', v' + v) :: rest else (k', v') :: upsert k v rest

/-- `categoryBreakdown`: per-category sum of monthly-equivalent cost over the
active subscriptions, as an insertion-ordered association list. -/
def categoryBreakdownOf (subs : List Subscription) : List (String × Rat) :=
  (activeSubs subs).foldl (fun acc sub => upsert sub.category (getMonthlyCost sub) acc) []

/-- `historicalData`: six entries, one per month from `subMonths now 5` up to
the current month; each cost is the cumulative monthly-equivalent total over
ALL subscriptions with `created_at ≤` that month's reference date. -/
def historicalDataOf (subs : List Subscription) (now : Int) : List (String × Rat) :=
  (List.range 6).map (fun i =>
    let month := subMonths now (5 - (i : Int))
    let cost := (subs.filter (fun s => decide (s.created_at ≤ month))).foldl
      (fun total sub => total + getMonthlyCost sub) 0
    (monthName (monthOf month), cost))

/- ## Stable descending sort (embedding of `Array.prototype.sort` with a
   `(a, b) => key(b) - key(a)` comparator; ECMAScript sort is stable) -/

/-- Insert into a list that is sorted descending by `key`, after any element
with a strictly larger or equal key already present further left. -/
def insertDescBy (key : α → Rat) (x : α) : List α → List α
  | [] => [x]
  | y :: ys => if key x < key y then y :: insertDescBy key x ys else x :: y :: ys

/-- Stable insertion sort, descending by `key`: earlier input elements come
first among equal keys. -/
def sortDescBy (key : α → Rat) : List α → List α
  | [] => []
  | x :: xs => insertDescBy key x (sortDescBy key xs)

/-- A subscription paired with its price increase, the `{ ...s, increase }`
object built inside `largestIncrease`. -/
structure SubWithIncrease where
  sub : Subscription
  increase : Rat
deriving DecidableEq

/-- `price_history[0].cost`; the `[]` case is unreachable behind the
non-empty-history filter. -/
def headHistCost (s : Subscription) : Rat :=
  match s.price_history with
  | [] => 0
  | e :: _ => e.cost

/-- The mapped candidate list inside `largestIncrease`: active subscriptions
with non-empty `price_history`, each scored by `cost - price_history[0].cost`. -/
def increaseCandidates (subs : List Subscription) : List SubWithIncrease :=
  ((activeSubs subs).filter (fun s => !s.price_history.isEmpty)).map
    (fun s => ⟨s, s.cost - headHistCost s⟩)

/-- `largestIncrease`: head of the candidates sorted descending by increase,
or absent when there are no candidates (`sorted[0] || null`). -/
def largestIncreaseOf (subs : List Subscription) : Option SubWithIncrease :=
  (sortDescBy (fun c => c.increase) (increaseCandidates subs)).head?

/-- `biggestSaving`: the inactive subscription with a cancellation date whose
monthly-equivalent cost is largest, or absent. -/
def biggestSavingOf (subs : List Subscription) : Option Subscription :=
  (sortDescBy getMonthlyCost
    (subs.filter (fun s => !s.is_active && s.cancellation_date.isSome))).head?

/- ## Mindful streak -/

/-- The body of the `mindfulStreak` loop: starting at month offset `i`, count
consecutive months (at most `fuel` more) in which some subscription was
created, stopping at the first empty month. -/
def mindfulStreakGo (subs : List Subscription) (now : Int) : Nat → Nat → Nat
  | 0, _ => 0
  | fuel + 1, i =>
      if subs.any (fun s => isSameMonth s.created_at (subMonths now (i : Int))) then
        1 + mindfulStreakGo subs now fuel (i + 1)
      else 0

/-- `mindfulStreak`: walk back from the current month for at most 12 months. -/
def mindfulStreakOf (subs : List Subscription) (now : Int) : Nat :=
  mindfulStreakGo subs now 12 0

/- ## Remaining simple analytics fields -/

/-- JS truthiness of the nullable numeric field `value_rating`. -/
def ratingTruthy : Option Int → Bool
  | none => false
  | some r => r != 0

/-- `subscriptionOfTheMonth`: the active rated subscription with the highest
`value_rating`, or absent. -/
def subscriptionOfTheMonthOf (subs : List Subscription) : Option Subscription :=
  (sortDescBy (fun s => ((s.value_rating.getD 0 : Int) : Rat))
    ((activeSubs subs).filter (fun s => ratingTruthy s.value_rating))).head?

/-- `lowValueSubs`: active subscriptions rated at most 2. -/
def lowValueSubsOf (subs : List Subscription) : List Subscription :=
  (activeSubs subs).filter (fun s =>
    ratingTruthy s.value_rating && decide (s.value_rating.getD 0 ≤ 2))

/- ## Rule-based recommendations (`recommendations` in `useSubscriptions.ts`) -/

/-- The closed union of insight types from `src/types/index.ts`. -/
inductive InsightType where
  | low_value
  | underutilized
  | price_increase
  | duplicate_category
deriving DecidableEq

/-- The `Insight` record from `src/types/index.ts`. -/
structure Insight where
  id : String
  subscription : Subscription
  type : InsightType
  title : String
  reason : String
  potential_savings : Rat
deriving DecidableEq

/-- `categoryCounts`: number of active subscriptions per category, embedded
as a function built by the same reduce. -/
def categoryCountsOf (subs : List Subscription) : String → Nat :=
  (activeSubs subs).foldl
    (fun acc sub => fun c => if c = sub.category then acc c + 1 else acc c)
    (fun _ => 0)

/-- `if (sub.value_rating && sub.value_rating <= 2)`: push a low-value insight. -/
def lowValueStep (acc : List Insight) (sub : Subscription) : List Insight :=
  match sub.value_rating with
  | some r =>
      if r ≠ 0 ∧ r ≤ 2 then
        acc ++ [⟨sub.id ++ "-low", sub, InsightType.low_value, "Low Value",
          "You rated this " ++ toString r ++ "/5 stars.", getMonthlyCost sub⟩]
      else acc
  | none => acc

/-- `if (sub.last_used_date && differenceInDays(now, ...) > 30)`: push an
underutilized insight. -/
def underusedStep (now : Int) (acc : List Insight) (sub : Subscription) : List Insight :=
  match sub.last_used_date with
  | some d =>
      if 30 < differenceInDays now d then
        acc ++ [⟨sub.id ++ "-unused", sub, InsightType.underutilized, "Underutilized",
          "Not used in over a month.", getMonthlyCost sub⟩]
      else acc
  | none => acc

/-- `if (sub.price_history && sub.price_history.length > 0 && sub.cost > ...)`:
push a price-increase insight. -/
def priceIncreaseStep (acc : List Insight) (sub : Subscription) : List Insight :=
  match sub.price_history with
  | [] => acc
  | e :: _ =>
      if e.cost < sub.cost then
        acc ++ [⟨sub.id ++ "-price", sub, InsightType.price_increase, "Price Increase",
          "Price increased from $" ++ toString e.cost ++ ".", 0⟩]
      else acc

/-- Is `i` a duplicate-category insight for category `c`? -/
def isDupFor (c : String) (i : Insight) : Bool :=
  decide (i.type = InsightType.duplicate_category ∧ i.subscription.category = c)

/-- `if (categoryCounts[...] > 1 && !recommendations.some(...))`: push a
duplicate-category insight unless one for this category is already present. -/
def dupStep (counts : String → Nat) (acc : List Insight) (sub : Subscription) : List Insight :=
  if 1 < counts sub.category ∧ ¬ (acc.any (isDupFor sub.category)) = true then
    acc ++ [⟨sub.id ++ "-dupe", sub, InsightType.duplicate_category, "Duplicate Category",
      "You have multiple subs in " ++ sub.category ++ ".", 0⟩]
  else acc

/-- The body of the `activeSubs.forEach` loop: the four pushes in sequence on
the shared recommendations accumulator. -/
def recStep (counts : String → Nat) (now : Int) (acc : List Insight)
    (sub : Subscription) : List Insight :=
  dupStep counts (priceIncreaseStep (underusedStep now (lowValueStep acc sub) sub) sub) sub

/-- `recommendations`: fold the four rules over the active subscriptions. -/
def recommendationsOf (subs : List Subscription) (now : Int) : List Insight :=
  (activeSubs subs).foldl (recStep (categoryCountsOf subs) now) []

/-- The number of duplicate-category insights for category `c` in a
recommendations list. -/
def dupCount (c : String) (l : List Insight) : Nat :=
  (l.filter (isDupFor c)).length

/-- Setting `is_active := false`, the transformation used to show which
aggregates ignore the active flag. -/
def deactivate (s : Subscription) : Subscription := { s with is_active := false }

/- ## The DerivedAnalytics record -/

/-- The analytics object returned by the `useMemo` in `useSubscriptions.ts`. -/
structure DerivedAnalytics where
  totalMonthlyCost : Rat
  lastMonthCost : Rat
  upcomingRenewals : List Subscription
  categoryBreakdown : List (String × Rat)
  historicalData : List (String × Rat)
  largestIncrease : Option SubWithIncrease
  biggestSaving : Option Subscription
  mindfulStreak : Nat
  subscriptionOfTheMonth : Option Subscription
  lowValueSubs : List Subscription
  recommendations : List Insight
  lastWeekCost : Rat
deriving DecidableEq

/-- The default empty analytics object (`initialAnalytics`). -/
def initialAnalytics : DerivedAnalytics :=
  { totalMonthlyCost := 0
    lastMonthCost := 0
    upcomingRenewals := []
    categoryBreakdown := []
    historicalData := []
    largestIncrease := none
    biggestSaving := none
    mindfulStreak := 0
    subscriptionOfTheMonth := none
    lowValueSubs := []
    recommendations := []
    lastWeekCost := 0 }

/-- The `analytics` computation: early-return `initialAnalytics` on an empty
collection, otherwise assemble every derived field. -/
def analytics (allSubscriptions : List Subscription) (now : Int) : DerivedAnalytics :=
  if allSubscriptions.isEmpty then initialAnalytics
  else
    { totalMonthlyCost := totalMonthlyCostOf allSubscriptions
      lastMonthCost := lastMonthCostOf allSubscriptions now
      upcomingRenewals := upcomingRenewalsOf allSubscriptions now
      categoryBreakdown := categoryBreakdownOf allSubscriptions
      historicalData := historicalDataOf allSubscriptions now
      largestIncrease := largestIncreaseOf allSubscriptions
      biggestSaving := biggestSavingOf allSubscriptions
      mindfulStreak := mindfulStreakOf allSubscriptions now
      subscriptionOfTheMonth := subscriptionOfTheMonthOf allSubscriptions
      lowValueSubs := lowValueSubsOf allSubscriptions
      recommendations := recommendationsOf allSubscriptions now
      lastWeekCost := lastWeekCostOf allSubscriptions now }

/- ## The weighted-score classifier (`generateRecommendation` in the
   smart-insights module) -/

/-- A JavaScript number that may be `Infinity` (the cost-per-use input). -/
inductive JSNum where
  | fin : Rat → JSNum
  | posInf : JSNum
deriving DecidableEq

/-- `x < q` for a possibly-infinite number. -/
def JSNum.ltQ : JSNum → Rat → Bool
  | .fin x, q => decide (x < q)
  | .posInf, _ => false

/-- `x > q` for a possibly-infinite number. -/
def JSNum.gtQ : JSNum → Rat → Bool
  | .fin x, q => decide (q < x)
  | .posInf, _ => true

/-- Usage-frequency contribution to the score. -/
def usageScore : String → Int
  | "daily" => 40
  | "weekly" => 30
  | "monthly" => 15
  | "rarely" => -10
  | "never" => -30
  | _ => 0

/-- Usage-frequency reason strings. -/
def usageReasons : String → List String
  | "daily" => ["Used daily - high engagement"]
  | "weekly" => ["Used weekly - good engagement"]
  | "monthly" => ["Used monthly - moderate engagement"]
  | "rarely" => ["Rarely used - low engagement"]
  | "never" => ["Never used - no engagement"]
  | _ => []

/-- Value-rating contribution: `(rating - 3) * 10` when the rating is truthy. -/
def ratingScore : Option Int → Int
  | some r => if r ≠ 0 then (r - 3) * 10 else 0
  | none => 0

/-- Value-rating reason strings. -/
def ratingReasons : Option Int → List String
  | some r =>
      if r ≠ 0 then
        if 4 ≤ r then ["High user rating - valuable service"]
        else if r ≤ 2 then ["Low user rating - questionable value"]
        else []
      else []
  | none => []

/-- Cost-per-use contribution to the score. -/
def cpuScore (c : JSNum) : Int :=
  if c.ltQ 1 then 20 else if c.ltQ 5 then 10 else if c.gtQ 20 then -20 else 0

/-- Cost-per-use reason strings. -/
def cpuReasons (c : JSNum) : List String :=
  if c.ltQ 1 then ["Excellent cost per use ratio"]
  else if c.ltQ 5 then ["Good cost per use ratio"]
  else if c.gtQ 20 then ["High cost per use - expensive for usage"]
  else []

/-- Value-trend contribution to the score. -/
def trendScore : String → Int
  | "increasing" => 15
  | "decreasing" => -15
  | _ => 0

/-- Value-trend reason strings. -/
def trendReasons : String → List String
  | "increasing" => ["Value trend is increasing"]
  | "decreasing" => ["Value trend is decreasing"]
  | _ => []

/-- The accumulated weighted score of `generateRecommendation`. -/
def recScore (sub : Subscription) (usageFrequency valueTrend : String)
    (costPerUse : JSNum) : Int :=
  usageScore usageFrequency + ratingScore sub.value_rating + cpuScore costPerUse
    + trendScore valueTrend

/-- The result record of `generateRecommendation`. -/
structure RecOutput where
  recommendation : String
  confidence : Rat
  reasons : List String
deriving DecidableEq

/-- `generateRecommendation`: classify by the weighted score and attach a
confidence and the collected reasons. -/
def generateRecommendation (sub : Subscription) (usageFrequency valueTrend : String)
    (costPerUse : JSNum) : RecOutput :=
  let score := recScore sub usageFrequency valueTrend costPerUse
  let reasons := usageReasons usageFrequency ++ ratingReasons sub.value_rating
    ++ cpuReasons costPerUse ++ trendReasons valueTrend
  if 40 ≤ score then
    ⟨"keep", min (9/10) ((score : Rat) / 50),
      reasons ++ ["Strong indicators suggest keeping this subscription"]⟩
  else if 10 ≤ score then
    ⟨"review", 7/10, reasons ++ ["Mixed signals - review usage and value"]⟩
  else
    ⟨"cancel", min (9/10) ((score.natAbs : Rat) / 30),
      reasons ++ ["Multiple indicators suggest canceling"]⟩

/- ## Concrete inputs used by the closed evaluation checks -/

/-- A template subscription for the concrete checks below
(day 20000 is 2024-10-04). -/
def baseSub : Subscription :=
  { id := "s1"
    name := "Svc"
    cost := 10
    billing_cycle := "monthly"
    next_renewal_date := 20005
    category := "Entertainment"
    is_active := true
    cancellation_date := none
    last_used_date := none
    value_rating := none
    created_at := 19900
    price_history := [] }

/-- A monthly subscription costing 12. -/
def exMonthly : Subscription := { baseSub with id := "m", cost := 12 }

/-- A yearly subscription costing 120. -/
def exYearly : Subscription := { baseSub with id := "y", cost := 120, billing_cycle := "yearly" }

/-- A weekly subscription costing 6. -/
def exWeekly : Subscription := { baseSub with id := "w", cost := 6, billing_cycle := "weekly" }

/-- A subscription with an unrecognised billing cycle. -/
def exUnknown : Subscription := { baseSub with id := "u", billing_cycle := "quarterly" }

/-- An active subscription whose price DROPPED from 10 to 8. -/
def exDec : Subscription :=
  { baseSub with id := "dec", cost := 8, price_history := [⟨19000, 10⟩] }

/-- An active subscription whose price rose from 5 to 8 (increase 3). -/
def exInc : Subscription :=
  { baseSub with id := "inc", cost := 8, price_history := [⟨19000, 5⟩] }

/-- Renews 5 days after day 20000; listed first. -/
def exA : Subscription := { baseSub with id := "a", next_renewal_date := 20005 }

/-- Renews 2 days after day 20000; listed second. -/
def exB : Subscription := { baseSub with id := "b", next_renewal_date := 20002 }

/-- A yearly subscription renewing on day 19990, inside the calendar week
(Mon 19989 .. Sun 19995) preceding day 20000. -/
def exYr : Subscription :=
  { baseSub with id := "yr", cost := 120, billing_cycle := "yearly", next_renewal_date := 19990 }

/-- A subscription rated 5/5. -/
def exRated : Subscription := { baseSub with id := "r", value_rating := some 5 }

end SubAudit

namespace SubAudit

/- ## General lemmas about the embedding -/

/-- A foldl that adds `g` of each element equals the initial value plus the
sum of the mapped list. -/
theorem foldl_add_eq_sum (g : α → Rat) (l : List α) (init : Rat) :
    l.foldl (fun t s => t + g s) init = init + (l.map g).sum := by
  induction l generalizing init with
  | nil => simp
  | cons x xs ih => simp [ih, add_assoc]

/-- `upsert` adds `v` to the total of the values. -/
theorem upsert_snd_sum (k : String) (v : Rat) (l : List (String × Rat)) :
    ((upsert k v l).map Prod.snd).sum = v + (l.map Prod.snd).sum := by
  induction l with
  | nil => simp [upsert]
  | cons p rest ih =>
      obtain ⟨k', v'⟩ := p
      by_cases h : k' = k <;> simp [upsert, h, ih] <;> ring

/-- Folding `upsert` over a list adds the mapped sum to the accumulator's
value total. -/
theorem breakdown_foldl_sum (l : List Subscription) (acc : List (String × Rat)) :
    (((l.foldl (fun acc sub => upsert sub.category (getMonthlyCost sub) acc) acc)).map
        Prod.snd).sum
      = (acc.map Prod.snd).sum + (l.map getMonthlyCost).sum := by
  induction l generalizing acc with
  | nil => simp
  | cons x xs ih => simp [ih, upsert_snd_sum]; ring

/-- `lastMonthCost` as a sum over the filtered collection. -/
theorem lastMonthCost_eq_sum (subs : List Subscription) (now : Int) :
    lastMonthCostOf subs now = ((subs.filter (inLastMonth now)).map getMonthlyCost).sum := by
  unfold lastMonthCostOf
  rw [foldl_add_eq_sum]
  simp

/-- `lastWeekCost` as a sum of raw costs over the filtered collection. -/
theorem lastWeekCost_eq_sum (subs : List Subscription) (now : Int) :
    lastWeekCostOf subs now = ((subs.filter (inLastWeek now)).map (fun s => s.cost)).sum := by
  unfold lastWeekCostOf
  rw [foldl_add_eq_sum (fun s : Subscription => s.cost)]
  simp

/-- Filtering and mapping through a record transformation that the predicate
and the projection ignore is invisible. -/
theorem filter_map_invariant (m : Subscription → Subscription) (p : Subscription → Bool)
    (g : Subscription → Rat) (hp : ∀ s, p (m s) = p s) (hg : ∀ s, g (m s) = g s)
    (l : List Subscription) :
    ((l.map m).filter p).map g = (l.filter p).map g := by
  induction l with
  | nil => rfl
  | cons x xs ih =>
      simp only [List.map_cons, List.filter_cons, hp]
      by_cases h : p x = true
      · simp [h, ih, hg]
      · simp [h, ih]

/-- Every subscription in `subs.map deactivate` is inactive, so the active
filter returns nothing. -/
theorem activeSubs_map_deactivate (subs : List Subscription) :
    activeSubs (subs.map deactivate) = [] := by
  induction subs with
  | nil => rfl
  | cons x xs ih => simp [activeSubs, deactivate]

/- ## Claim theorems -/

/-- Claim C7: `getMonthlyCost` returns the cost unchanged for a monthly
cycle, cost/12 for yearly, cost×52/12 for weekly, and 0 for any other
billing-cycle string. -/
theorem getMonthlyCost_spec (sub : Subscription) :
    (sub.billing_cycle = "monthly" → getMonthlyCost sub = sub.cost) ∧
    (sub.billing_cycle = "yearly" → getMonthlyCost sub = sub.cost / 12) ∧
    (sub.billing_cycle = "weekly" → getMonthlyCost sub = sub.cost * 52 / 12) ∧
    (sub.billing_cycle ≠ "monthly" ∧ sub.billing_cycle ≠ "yearly" ∧
        sub.billing_cycle ≠ "weekly" → getMonthlyCost sub = 0) := by
  unfold getMonthlyCost
  refine ⟨fun h => ?_, fun h => ?_, fun h => ?_, fun h => ?_⟩
  · simp [h]
  · simp [h]
  · simp [h]
  · simp [h.1, h.2.1, h.2.2]

/-- Witness for C7: evaluation of the four branches on concrete
subscriptions. -/
theorem getMonthlyCost_spec_witness :
    getMonthlyCost exMonthly = exMonthly.cost ∧
    getMonthlyCost exYearly = exYearly.cost / 12 ∧
    getMonthlyCost exWeekly = exWeekly.cost * 52 / 12 ∧
    getMonthlyCost exUnknown = 0 :=
  ⟨(getMonthlyCost_spec exMonthly).1 rfl,
   (getMonthlyCost_spec exYearly).2.1 rfl,
   (getMonthlyCost_spec exWeekly).2.2.1 rfl,
   (getMonthlyCost_spec exUnknown).2.2.2 ⟨by decide, by decide, by decide⟩⟩

/-- Claim C5: on the empty collection the engine returns all-zero numeric
fields, empty list/map fields, and absent optional fields. -/
theorem analytics_empty (now : Int) :
    (analytics [] now).totalMonthlyCost = 0 ∧
    (analytics [] now).lastMonthCost = 0 ∧
    (analytics [] now).lastWeekCost = 0 ∧
    (analytics [] now).mindfulStreak = 0 ∧
    (analytics [] now).upcomingRenewals = [] ∧
    (analytics [] now).categoryBreakdown = [] ∧
    (analytics [] now).historicalData = [] ∧
    (analytics [] now).recommendations = [] ∧
    (analytics [] now).largestIncrease = none ∧
    (analytics [] now).biggestSaving = none :=
  ⟨rfl, rfl, rfl, rfl, rfl, rfl, rfl, rfl, rfl, rfl⟩

/-- Claim C6: the values of `categoryBreakdown` sum to `totalMonthlyCost`;
both are derived from the active subscriptions through `getMonthlyCost`. -/
theorem categoryBreakdown_sums_to_total (subs : List Subscription) :
    ((categoryBreakdownOf subs).map Prod.snd).sum = totalMonthlyCostOf subs := by
  unfold categoryBreakdownOf totalMonthlyCostOf
  rw [breakdown_foldl_sum, foldl_add_eq_sum]
  simp

/-- Counterexample for C2: two active subscriptions renewing in 5 and 2 days,
listed in that order; `upcomingRenewals` keeps the input order, so it is not
sorted by ascending renewal date. -/
theorem upcomingRenewals_unsorted_counterexample :
    upcomingRenewalsOf [exA, exB] 20000 = [exA, exB] ∧
    exB.next_renewal_date < exA.next_renewal_date ∧
    ¬ List.Pairwise (fun a b => a.next_renewal_date ≤ b.next_renewal_date)
        (upcomingRenewalsOf [exA, exB] 20000) := by
  refine ⟨by decide, by decide, fun h => ?_⟩
  rw [show upcomingRenewalsOf [exA, exB] 20000 = [exA, exB] from by decide] at h
  rw [List.pairwise_cons] at h
  exact absurd (h.1 exB (by simp)) (by decide)

/-- Claim C2 (amended): `upcomingRenewals` contains exactly the active
subscriptions renewing within 0..7 days of `now`, in input order (it is a
sublist of the collection), without any sorting by renewal date. -/
theorem upcomingRenewals_spec (subs : List Subscription) (now : Int) :
    (∀ s, s ∈ upcomingRenewalsOf subs now ↔
      s ∈ subs ∧ s.is_active = true ∧
        0 ≤ differenceInDays s.next_renewal_date now ∧
        differenceInDays s.next_renewal_date now ≤ 7) ∧
    (upcomingRenewalsOf subs now).Sublist subs := by
  constructor
  · intro s
    simp only [upcomingRenewalsOf, activeSubs, List.mem_filter, decide_eq_true_eq]
    tauto
  · exact (List.filter_sublist _).trans (List.filter_sublist _)

/-- Counterexample for C3: a yearly subscription renewing inside the
previous calendar week contributes its raw cost 120 to `lastWeekCost`, not
its monthly-equivalent cost 10. -/
theorem lastWeekCost_raw_cost_counterexample :
    inLastWeek 20000 exYr = true ∧
    lastWeekCostOf [exYr] 20000 = 120 ∧
    getMonthlyCost exYr = 10 ∧
    lastWeekCostOf [exYr] 20000 ≠ (([exYr].filter (inLastWeek 20000)).map getMonthlyCost).sum := by
  have hf : [exYr].filter (inLastWeek 20000) = [exYr] := by decide
  have hm : getMonthlyCost exYr = 10 := by
    unfold getMonthlyCost
    rw [if_neg (by decide), if_pos (by decide)]
    norm_num [exYr, baseSub]
  refine ⟨by decide, ?_, hm, ?_⟩
  · rw [lastWeekCost_eq_sum, hf]
    norm_num [exYr, baseSub]
  · rw [lastWeekCost_eq_sum, hf]
    simp only [List.map_cons, List.map_nil, List.sum_cons, List.sum_nil, hm]
    norm_num [exYr, baseSub]

/-- Claim C3 (amended): `lastMonthCost` sums monthly-equivalent cost over
subscriptions whose `created_at` lies in the previous calendar month, while
`lastWeekCost` sums the RAW cost over subscriptions whose
`next_renewal_date` lies in the previous calendar week; the two anchor
fields differ, as witnessed by the invariance of each under arbitrary
rewrites of the other field. -/
theorem trailing_costs_spec (subs : List Subscription) (now : Int) :
    lastMonthCostOf subs now = ((subs.filter (inLastMonth now)).map getMonthlyCost).sum ∧
    lastWeekCostOf subs now = ((subs.filter (inLastWeek now)).map (fun s => s.cost)).sum ∧
    (∀ f : Subscription → Int,
      lastMonthCostOf (subs.map (fun s => { s with next_renewal_date := f s })) now
        = lastMonthCostOf subs now) ∧
    (∀ g : Subscription → Int,
      lastWeekCostOf (subs.map (fun s => { s with created_at := g s })) now
        = lastWeekCostOf subs now) := by
  refine ⟨lastMonthCost_eq_sum subs now, lastWeekCost_eq_sum subs now, fun f => ?_, fun g => ?_⟩
  · rw [lastMonthCost_eq_sum, lastMonthCost_eq_sum]
    exact congrArg List.sum
      (filter_map_invariant (fun s => { s with next_renewal_date := f s })
        (inLastMonth now) getMonthlyCost (fun s => rfl) (fun s => rfl) subs)
  · rw [lastWeekCost_eq_sum, lastWeekCost_eq_sum]
    exact congrArg List.sum
      (filter_map_invariant (fun s => { s with created_at := g s })
        (inLastWeek now) (fun s => s.cost) (fun s => rfl) (fun s => rfl) subs)

/-- Claim C10: the trailing-period and historical aggregates are computed
over the full collection (deactivating every subscription changes nothing),
whereas the active-filtered aggregates all collapse when every subscription
is inactive. -/
theorem historical_aggregates_include_inactive (subs : List Subscription) (now : Int) :
    lastMonthCostOf (subs.map deactivate) now = lastMonthCostOf subs now ∧
    lastWeekCostOf (subs.map deactivate) now = lastWeekCostOf subs now ∧
    historicalDataOf (subs.map deactivate) now = historicalDataOf subs now ∧
    totalMonthlyCostOf (subs.map deactivate) = 0 ∧
    categoryBreakdownOf (subs.map deactivate) = [] ∧
    upcomingRenewalsOf (subs.map deactivate) now = [] ∧
    recommendationsOf (subs.map deactivate) now = [] := by
  refine ⟨?_, ?_, ?_, ?_, ?_, ?_, ?_⟩
  · rw [lastMonthCost_eq_sum, lastMonthCost_eq_sum]
    exact congrArg List.sum
      (filter_map_invariant deactivate (inLastMonth now) getMonthlyCost
        (fun s => rfl) (fun s => rfl) subs)
  · rw [lastWeekCost_eq_sum, lastWeekCost_eq_sum]
    exact congrArg List.sum
      (filter_map_invariant deactivate (inLastWeek now) (fun s => s.cost)
        (fun s => rfl) (fun s => rfl) subs)
  · unfold historicalDataOf
    apply List.map_congr_left
    intro i _
    dsimp only
    have h := filter_map_invariant deactivate
      (fun s => decide (s.created_at ≤ subMonths now (5 - (i : Int)))) getMonthlyCost
      (fun s => rfl) (fun s => rfl) subs
    rw [foldl_add_eq_sum, foldl_add_eq_sum, h]
  · unfold totalMonthlyCostOf
    rw [activeSubs_map_deactivate]
    rfl
  · unfold categoryBreakdownOf
    rw [activeSubs_map_deactivate]
    rfl
  · unfold upcomingRenewalsOf
    rw [activeSubs_map_deactivate]
    rfl
  · unfold recommendationsOf
    rw [activeSubs_map_deactivate]
    rfl

/-- The streak over the months is monotone in the subscription collection. -/
theorem mindfulStreakGo_mono (subs' subs : List Subscription) (now : Int)
    (h : ∀ s ∈ subs', s ∈ subs) :
    ∀ fuel i, mindfulStreakGo subs' now fuel i ≤ mindfulStreakGo subs now fuel i := by
  intro fuel
  induction fuel with
  | zero => intro i; exact Nat.le_refl 0
  | succ f ih =>
      intro i
      simp only [mindfulStreakGo]
      by_cases h' :
          subs'.any (fun s => isSameMonth s.created_at (subMonths now (i : Int))) = true
      · have hb : subs.any (fun s => isSameMonth s.created_at (subMonths now (i : Int))) = true := by
          rw [List.any_eq_true] at h' ⊢
          obtain ⟨s, hs, hp⟩ := h'
          exact ⟨s, h s hs, hp⟩
        rw [if_pos h', if_pos hb]
        exact Nat.add_le_add_left (ih (i + 1)) 1
      · rw [if_neg h']
        exact Nat.zero_le _

/-- `insertDescBy` never produces the empty list. -/
theorem insertDescBy_ne_nil (key : α → Rat) (x : α) (l : List α) :
    insertDescBy key x l ≠ [] := by
  cases l with
  | nil => simp [insertDescBy]
  | cons y ys =>
      simp only [insertDescBy]
      split <;> simp

/-- `sortDescBy` returns the empty list only on the empty list. -/
theorem sortDescBy_eq_nil_iff (key : α → Rat) (l : List α) :
    sortDescBy key l = [] ↔ l = [] := by
  cases l with
  | nil => simp [sortDescBy]
  | cons x xs => simp [sortDescBy, insertDescBy_ne_nil]

/-- The head of the descending sort is a member of the list and has a
maximal key. -/
theorem sortDescBy_head_max (key : α → Rat) (l : List α) (x : α)
    (hx : (sortDescBy key l).head? = some x) :
    x ∈ l ∧ ∀ y ∈ l, key y ≤ key x := by
  induction l generalizing x with
  | nil => simp [sortDescBy] at hx
  | cons a l' ih =>
      simp only [sortDescBy] at hx
      cases hsort : sortDescBy key l' with
      | nil =>
          have hl' : l' = [] := (sortDescBy_eq_nil_iff key l').mp hsort
          rw [hsort] at hx
          simp only [insertDescBy, List.head?_cons, Option.some.injEq] at hx
          subst hx
          subst hl'
          exact ⟨List.mem_singleton_self a, by intro y hy; rw [List.mem_singleton.mp hy]⟩
      | cons b rest =>
          rw [hsort] at hx
          obtain ⟨hbmem, hbmax⟩ := ih b (by rw [hsort]; rfl)
          simp only [insertDescBy] at hx
          by_cases hc : key a < key b
          · rw [if_pos hc] at hx
            simp only [List.head?_cons, Option.some.injEq] at hx
            subst hx
            refine ⟨List.mem_cons_of_mem a hbmem, ?_⟩
            intro y hy
            rcases List.mem_cons.mp hy with h | h
            · rw [h]; exact le_of_lt hc
            · exact hbmax y h
          · rw [if_neg hc] at hx
            simp only [List.head?_cons, Option.some.injEq] at hx
            subst hx
            refine ⟨List.mem_cons_self a l', ?_⟩
            intro y hy
            rcases List.mem_cons.mp hy with h | h
            · rw [h]
            · exact le_trans (hbmax y h) (le_of_not_lt hc)

/-- Counterexample for C1: a single active subscription whose price dropped
from 10 to 8.  The maximum increase is −2 ≤ 0, yet `largestIncrease` is
present (the claim requires it to be absent). -/
theorem largestIncrease_present_on_decrease :
    largestIncreaseOf [exDec] = some ⟨exDec, -2⟩ ∧
    ∀ c ∈ increaseCandidates [exDec], c.increase ≤ 0 := by
  have h2 : exDec.cost - headHistCost exDec = -2 := by
    norm_num [headHistCost, exDec, baseSub]
  constructor
  · calc largestIncreaseOf [exDec]
        = some ⟨exDec, exDec.cost - headHistCost exDec⟩ := rfl
      _ = some ⟨exDec, -2⟩ := by rw [h2]
  · intro c hc
    have hcc : c = ⟨exDec, exDec.cost - headHistCost exDec⟩ := List.mem_singleton.mp hc
    rw [hcc]
    simp only [h2]
    norm_num

/-- Claim C1 (amended): `largestIncrease` is absent exactly when no active
subscription has a non-empty `price_history`; otherwise it is a candidate
achieving the maximum of `cost − price_history[0].cost`, even when that
maximum is ≤ 0. -/
theorem largestIncrease_spec (subs : List Subscription) :
    (largestIncreaseOf subs = none ↔ increaseCandidates subs = []) ∧
    (∀ w, largestIncreaseOf subs = some w →
      w ∈ increaseCandidates subs ∧
        ∀ c ∈ increaseCandidates subs, c.increase ≤ w.increase) := by
  constructor
  · unfold largestIncreaseOf
    rw [List.head?_eq_none_iff]
    exact sortDescBy_eq_nil_iff _ _
  · intro w hw
    exact sortDescBy_head_max _ _ w hw

/-- Witness for C1: on a subscription whose price rose from 5 to 8,
`largestIncrease` is present, is a candidate, and its increase is maximal. -/
theorem largestIncrease_spec_witness :
    (⟨exInc, exInc.cost - headHistCost exInc⟩ : SubWithIncrease) ∈ increaseCandidates [exInc] ∧
    ∀ c ∈ increaseCandidates [exInc],
      c.increase ≤ (⟨exInc, exInc.cost - headHistCost exInc⟩ : SubWithIncrease).increase :=
  (largestIncrease_spec [exInc]).2 _ rfl

/-- Claim C8: removing the subscriptions created in the most recent month
cannot increase the mindful streak. -/
theorem mindfulStreak_remove_recent_monotone (subs : List Subscription) (now : Int) :
    mindfulStreakOf
        (subs.filter (fun s => !(isSameMonth s.created_at (subMonths now 0)))) now
      ≤ mindfulStreakOf subs now := by
  unfold mindfulStreakOf
  exact mindfulStreakGo_mono _ _ now (fun s hs => (List.mem_filter.mp hs).1) 12 0

/-- Appending one insight adds its own duplicate-category contribution. -/
theorem dupCount_append_single (c : String) (l : List Insight) (i : Insight) :
    dupCount c (l ++ [i]) = dupCount c l + (if isDupFor c i then 1 else 0) := by
  simp only [dupCount, List.filter_append, List.length_append, List.filter_cons,
    List.filter_nil]
  split <;> simp

/-- An insight whose type is not duplicate-category never counts. -/
theorem isDupFor_ne_type (c : String) (i : Insight)
    (h : i.type ≠ InsightType.duplicate_category) : isDupFor c i = false := by
  unfold isDupFor
  exact decide_eq_false fun hab => h hab.1

/-- The low-value push does not change the duplicate-category count. -/
theorem dupCount_lowValueStep (c : String) (acc : List Insight) (sub : Subscription) :
    dupCount c (lowValueStep acc sub) = dupCount c acc := by
  unfold lowValueStep
  split
  · split
    · rw [dupCount_append_single]
      simp [isDupFor]
    · rfl
  · rfl

/-- The underutilized push does not change the duplicate-category count. -/
theorem dupCount_underusedStep (c : String) (now : Int) (acc : List Insight)
    (sub : Subscription) :
    dupCount c (underusedStep now acc sub) = dupCount c acc := by
  unfold underusedStep
  split
  · split
    · rw [dupCount_append_single]
      simp [isDupFor]
    · rfl
  · rfl

/-- The price-increase push does not change the duplicate-category count. -/
theorem dupCount_priceIncreaseStep (c : String) (acc : List Insight)
    (sub : Subscription) :
    dupCount c (priceIncreaseStep acc sub) = dupCount c acc := by
  unfold priceIncreaseStep
  split
  · rfl
  · split
    · rw [dupCount_append_single]
      simp [isDupFor]
    · rfl

/-- `some(isDupFor c)` over a list is false exactly when the duplicate count
is zero. -/
theorem any_isDupFor_eq_false_iff (c : String) (l : List Insight) :
    l.any (isDupFor c) = false ↔ dupCount c l = 0 := by
  simp [dupCount, List.length_eq_zero, List.filter_eq_nil_iff, List.any_eq_false]

/-- The duplicate-category push adds exactly one insight, for the
subscription's own category and only when that category has more than one
active subscription and no duplicate insight was recorded before. -/
theorem dupCount_dupStep (counts : String → Nat) (c : String) (acc : List Insight)
    (sub : Subscription) :
    dupCount c (dupStep counts acc sub) =
      if c = sub.category ∧ 1 < counts c ∧ dupCount c acc = 0 then 1
      else dupCount c acc := by
  unfold dupStep
  by_cases hca : c = sub.category
  · rw [hca]
    split
    · rename_i h
      have hz : dupCount sub.category acc = 0 := by
        rw [← any_isDupFor_eq_false_iff]
        cases ha2 : acc.any (isDupFor sub.category)
        · rfl
        · exact absurd ha2 h.2
      have hd : isDupFor sub.category
          ⟨sub.id ++ "-dupe", sub, InsightType.duplicate_category,
            "Duplicate Category", "You have multiple subs in " ++ sub.category ++ ".", 0⟩
            = true := decide_eq_true ⟨rfl, rfl⟩
      rw [dupCount_append_single, hd,
        if_pos (show sub.category = sub.category ∧ 1 < counts sub.category ∧
          dupCount sub.category acc = 0 from ⟨rfl, h.1, hz⟩)]
      simp [hz]
    · rename_i h
      have hneg : ¬(sub.category = sub.category ∧ 1 < counts sub.category ∧
          dupCount sub.category acc = 0) := by
        rintro ⟨-, hcnt, hz⟩
        exact h ⟨hcnt, by rw [(any_isDupFor_eq_false_iff sub.category acc).mpr hz]; simp⟩
      rw [if_neg hneg]
  · rw [if_neg (show ¬(c = sub.category ∧ 1 < counts c ∧ dupCount c acc = 0) from
      fun hh => hca hh.1)]
    split
    · have hd : isDupFor c
          ⟨sub.id ++ "-dupe", sub, InsightType.duplicate_category,
            "Duplicate Category", "You have multiple subs in " ++ sub.category ++ ".", 0⟩
            = false := decide_eq_false fun hab => hca hab.2.symm
      rw [dupCount_append_single, hd]
      simp
    · rfl

/-- One pass of the forEach body changes the duplicate-category count as
`dupStep` alone does. -/
theorem dupCount_recStep (counts : String → Nat) (now : Int) (c : String)
    (acc : List Insight) (sub : Subscription) :
    dupCount c (recStep counts now acc sub) =
      if c = sub.category ∧ 1 < counts c ∧ dupCount c acc = 0 then 1
      else dupCount c acc := by
  unfold recStep
  rw [dupCount_dupStep, dupCount_priceIncreaseStep, dupCount_underusedStep,
    dupCount_lowValueStep]

/-- Folding the forEach body: the final duplicate-category count for `c` is
1 exactly when the category count exceeds 1 and either the accumulator
already holds a duplicate insight or some processed subscription has
category `c`. -/
theorem dupCount_foldl_recStep (counts : String → Nat) (now : Int) (c : String)
    (l : List Subscription) :
    ∀ acc : List Insight, dupCount c acc ≤ 1 → (1 ≤ dupCount c acc → 1 < counts c) →
      dupCount c (l.foldl (recStep counts now) acc) =
        if 1 < counts c ∧ (1 ≤ dupCount c acc ∨ ∃ s ∈ l, s.category = c) then 1
        else 0 := by
  induction l with
  | nil =>
      intro acc h1 h2
      simp only [List.foldl_nil]
      by_cases hd : 1 ≤ dupCount c acc
      · rw [if_pos ⟨h2 hd, Or.inl hd⟩]
        omega
      · have h0 : dupCount c acc = 0 := by omega
        rw [h0]
        simp
  | cons s l' ih =>
      intro acc h1 h2
      simp only [List.foldl_cons]
      have hstep := dupCount_recStep counts now c acc s
      have ha : dupCount c (recStep counts now acc s) ≤ 1 := by
        rw [hstep]; split <;> omega
      have hb : 1 ≤ dupCount c (recStep counts now acc s) → 1 < counts c := by
        rw [hstep]; split
        · rename_i h; exact fun _ => h.2.1
        · exact h2
      rw [ih (recStep counts now acc s) ha hb, hstep]
      refine if_congr (and_congr_right fun hcnt => ?_) rfl rfl
      constructor
      · rintro (hle | ⟨x, hx, hxc⟩)
        · by_cases hC : c = s.category ∧ 1 < counts c ∧ dupCount c acc = 0
          · exact Or.inr ⟨s, List.mem_cons_self s l', hC.1.symm⟩
          · rw [if_neg hC] at hle
            exact Or.inl hle
        · exact Or.inr ⟨x, List.mem_cons_of_mem s hx, hxc⟩
      · rintro (hle | ⟨x, hx, hxc⟩)
        · by_cases hC : c = s.category ∧ 1 < counts c ∧ dupCount c acc = 0
          · rw [if_pos hC]
            exact Or.inl le_rfl
          · rw [if_neg hC]
            exact Or.inl hle
        · rcases List.mem_cons.mp hx with hxeq | hx'
          · subst hxeq
            by_cases hC : c = x.category ∧ 1 < counts c ∧ dupCount c acc = 0
            · rw [if_pos hC]
              exact Or.inl le_rfl
            · rw [if_neg hC]
              refine Or.inl ?_
              by_contra hd
              exact hC ⟨hxc.symm, hcnt, by omega⟩
          · exact Or.inr ⟨x, hx', hxc⟩

/-- The category-count map counts the active subscriptions per category. -/
theorem categoryCountsOf_eq (subs : List Subscription) (c : String) :
    categoryCountsOf subs c =
      ((activeSubs subs).filter (fun s => decide (s.category = c))).length := by
  unfold categoryCountsOf
  suffices h : ∀ (l : List Subscription) (f : String → Nat),
      (l.foldl (fun acc sub => fun x => if x = sub.category then acc x + 1 else acc x) f) c
        = f c + (l.filter (fun s => decide (s.category = c))).length by
    simpa using h (activeSubs subs) (fun _ => 0)
  intro l
  induction l with
  | nil => intro f; simp
  | cons x xs ih =>
      intro f
      rw [List.foldl_cons, ih, List.filter_cons]
      by_cases hc : x.category = c
      · rw [if_pos (show (fun s => decide (s.category = c)) x = true from by
          simp [hc])]
        show (if c = x.category then f c + 1 else f c) + _ = _
        rw [if_pos hc.symm, List.length_cons]
        omega
      · rw [if_neg (show ¬ (fun s => decide (s.category = c)) x = true from by
          simp [hc])]
        show (if c = x.category then f c + 1 else f c) + _ = _
        rw [if_neg (fun h => hc h.symm)]

/-- Claim C4: for every category, the recommendations list holds exactly one
duplicate-category insight when more than one active subscription shares the
category, and none otherwise. -/
theorem duplicate_category_exactly_once (subs : List Subscription) (now : Int)
    (c : String) :
    dupCount c (recommendationsOf subs now) =
      if 1 < ((activeSubs subs).filter (fun s => decide (s.category = c))).length
      then 1 else 0 := by
  unfold recommendationsOf
  rw [dupCount_foldl_recStep (categoryCountsOf subs) now c (activeSubs subs) []
      (by simp [dupCount]) (by simp [dupCount]), categoryCountsOf_eq]
  by_cases h : 1 < ((activeSubs subs).filter (fun s => decide (s.category = c))).length
  · have hpos : 0 < ((activeSubs subs).filter (fun s => decide (s.category = c))).length := by
      omega
    obtain ⟨s, hs⟩ := List.exists_mem_of_length_pos hpos
    obtain ⟨hsm, hsc⟩ := List.mem_filter.mp hs
    rw [if_pos ⟨h, Or.inr ⟨s, hsm, of_decide_eq_true hsc⟩⟩, if_pos h]
  · rw [if_neg (fun hh => h hh.1), if_neg h]

/-- Claim C9: the weighted-score classifier returns keep exactly when the
score is ≥ 40, review exactly when 10 ≤ score < 40, cancel exactly when
score < 10; each branch's confidence is the corresponding clamped function
of the score magnitude. -/
theorem generateRecommendation_thresholds (sub : Subscription) (uf vt : String)
    (cpu : JSNum) :
    ((generateRecommendation sub uf vt cpu).recommendation = "keep" ↔
      40 ≤ recScore sub uf vt cpu) ∧
    ((generateRecommendation sub uf vt cpu).recommendation = "review" ↔
      10 ≤ recScore sub uf vt cpu ∧ recScore sub uf vt cpu < 40) ∧
    ((generateRecommendation sub uf vt cpu).recommendation = "cancel" ↔
      recScore sub uf vt cpu < 10) ∧
    (40 ≤ recScore sub uf vt cpu →
      (generateRecommendation sub uf vt cpu).confidence
        = min (9/10) ((recScore sub uf vt cpu : Rat) / 50)) ∧
    (10 ≤ recScore sub uf vt cpu → recScore sub uf vt cpu < 40 →
      (generateRecommendation sub uf vt cpu).confidence = 7/10) ∧
    (recScore sub uf vt cpu < 10 →
      (generateRecommendation sub uf vt cpu).confidence
        = min (9/10) (((recScore sub uf vt cpu).natAbs : Rat) / 30)) := by
  simp only [generateRecommendation]
  by_cases h1 : 40 ≤ recScore sub uf vt cpu
  · rw [if_pos h1]
    refine ⟨by simp [h1], by simp; omega, by simp; omega,
      fun _ => rfl, fun _ h => absurd h1 (by omega), fun h => absurd h1 (by omega)⟩
  · rw [if_neg h1]
    by_cases h2 : 10 ≤ recScore sub uf vt cpu
    · rw [if_pos h2]
      refine ⟨by simp; omega, by simp; omega, by simp; omega,
        fun h => absurd h h1, fun _ _ => rfl, fun h => absurd h2 (by omega)⟩
    · rw [if_neg h2]
      refine ⟨by simp; omega, by simp; omega, by simp; omega,
        fun h => absurd h h1, fun h _ => absurd h h2, fun _ => rfl⟩

/-- Witness for C9: a 5/5-rated subscription used daily with infinite
cost-per-use and stable trend scores 40 + 20 − 20 + 0 = 40, is classified
keep, and gets the clamped keep confidence. -/
theorem generateRecommendation_thresholds_witness :
    (generateRecommendation exRated "daily" "stable" JSNum.posInf).recommendation
        = "keep" ∧
    (generateRecommendation exRated "daily" "stable" JSNum.posInf).confidence
        = min (9/10) ((recScore exRated "daily" "stable" JSNum.posInf : Rat) / 50) :=
  ⟨(generateRecommendation_thresholds exRated "daily" "stable" JSNum.posInf).1.mpr
      (by decide),
   (generateRecommendation_thresholds exRated "daily" "stable" JSNum.posInf).2.2.2.1
      (by decide)⟩

end SubAudit

namespace SubAudit

/- Concrete evaluation checks of the calendar embedding. -/

/-- Day 0 is 1970-01-01. -/
theorem calendar_epoch_civil : civilFromDays 0 = (1970, 1, 1) := by decide

/-- 1970-01-01 is day 0. -/
theorem calendar_epoch_day : daysFromCivil 1970 1 1 = 0 := by decide

/-- Day 20000 is 2024-10-04. -/
theorem calendar_day_20000 : civilFromDays 20000 = (2024, 10, 4) := by decide

/-- Days 20000 and 20010 fall in the same month. -/
theorem calendar_sameMonth_true : isSameMonth 20000 20010 = true := by decide

/-- Days 20000 and 19960 fall in different months. -/
theorem calendar_sameMonth_false : isSameMonth 20000 19960 = false := by decide

/-- One month before 2024-10-04 is 2024-09-04. -/
theorem calendar_subMonths_check : subMonths 20000 1 = daysFromCivil 2024 9 4 := by decide

/-- The Monday on or before day 19993 is day 19989. -/
theorem calendar_startOfWeek_check : startOfWeekMon 19993 = 19989 := by decide

end SubAudit
